import Mathlib

/-!
Shallow embedding of `Controller` (src/Firmware/MotorControl/controller.cpp)
from the ODrive motor-control firmware.  `float` arithmetic is modelled by
exact rationals; the C++ member state plus the fields of `Config_t` that
`update` touches are gathered in explicit structures, and the collaborators
that `update` merely reads (axis loop counter, trajectory planner, encoder,
motor) are passed in as an input record.
-/

namespace ODrive

/-- Modelled from the spec: the ordered control-mode enum
{CURRENT, VELOCITY, POSITION, TRAJECTORY} (the header declaring
`CTRL_MODE_*` is not under src/).  Only the total order matters;
`mode >= X` gates in the source become `X ≤ mode`. -/
def CTRL_MODE_CURRENT_CONTROL : Nat := 1

/-- Velocity control mode rank (see `CTRL_MODE_CURRENT_CONTROL`). -/
def CTRL_MODE_VELOCITY_CONTROL : Nat := 2

/-- Position control mode rank (see `CTRL_MODE_CURRENT_CONTROL`). -/
def CTRL_MODE_POSITION_CONTROL : Nat := 3

/-- Trajectory control mode rank (see `CTRL_MODE_CURRENT_CONTROL`). -/
def CTRL_MODE_TRAJECTORY_CONTROL : Nat := 4

/-- Modelled from the spec: the controller's sticky overspeed fault bit
(`ERROR_OVERSPEED` in the header, which is not under src/); the concrete
bit position is irrelevant to the claims. -/
def ERROR_OVERSPEED : Nat := 1

/-- Modelled from the spec: the generic "controller failed" bit raised on
the owning axis (`Axis::ERROR_CONTROLLER_FAILED`, header not under src/). -/
def AXIS_ERROR_CONTROLLER_FAILED : Nat := 16

/-- The fields of `Controller::Config_t` that `update` reads or writes,
plus the cogging map (`config_.cogmap`), which lives in the config struct
and is mutated online by `update`. -/
structure Config where
  control_mode : Nat
  pos_gain : ℚ
  vel_gain : ℚ
  vel_integrator_gain : ℚ
  vel_limit : ℚ
  vel_limit_tolerance : ℚ
  vel_ramp_enable : Bool
  vel_ramp_rate : ℚ
  setpoints_in_cpr : Bool
  cogmap : List ℚ
  cogmap_size : Nat
  cogmap_integrator_gain : ℚ
  cogmap_max_current : ℚ

/-- Mutable member state of `Controller` (the fields touched by `update`
and `set_error`), together with its `Config` (the C++ `config_` reference)
and the owning axis's error word (`axis_->error_`). -/
structure ControllerState where
  config : Config
  pos_setpoint : ℚ
  vel_setpoint : ℚ
  vel_integrator_current : ℚ
  current_setpoint : ℚ
  vel_ramp_target : ℚ
  cogmap_current : ℚ
  cogmap_correction_pwr : ℚ
  traj_start_loop_count : Nat
  goal_point : ℚ
  error : Nat
  axis_error : Nat

/-- One `{Y, Yd, Ydd}` sample of the trapezoidal trajectory planner
(`TrapezoidalTrajectory::Step_t`), an external collaborator. -/
structure TrajStep where
  Y : ℚ
  Yd : ℚ
  Ydd : ℚ

/-- Everything `update` reads from collaborators during one cycle:
the axis loop counter, the planner (duration `Tf_`, sample function,
`A_per_css`), the encoder (`cpr`, `pos_cpr_`, `count_in_cpr_`), the motor
(type tag, ACIM flux data, `effective_current_lim()`), and the global
cycle period `current_meas_period`. -/
structure Inputs where
  loop_counter : Nat
  traj_Tf : ℚ
  traj_eval : ℚ → TrajStep
  A_per_css : ℚ
  encoder_cpr : Nat
  encoder_pos_cpr : ℚ
  encoder_count_in_cpr : Int
  motor_is_acim : Bool
  acim_rotor_flux : ℚ
  acim_gain_min_flux : ℚ
  effective_current_lim : ℚ
  current_meas_period : ℚ

/-- Modelled from the spec: the firmware utility `clamp_bidirf`
(not under src/) — symmetric clamp of `x` into `[-lim, lim]`. -/
def clamp_bidirf (x lim : ℚ) : ℚ := max (min x lim) (-lim)

/-- Modelled from the spec: the firmware utility `fmodf_pos`
(not under src/) — remainder of `x` modulo `y` normalized into `[0, y)`
for positive `y`. -/
def fmodf_pos (x y : ℚ) : ℚ := x - y * ⌊x / y⌋

/-- Modelled from the spec: the firmware utility `wrap_pm`
(not under src/) — wrap `x` into the half-open range `[-pm, pm)`. -/
def wrap_pm (x pm : ℚ) : ℚ := fmodf_pos (x + pm) (2 * pm) - pm

/-- Truncation toward zero, the semantics of C's float-to-integer cast. -/
def ratTrunc (q : ℚ) : Int := if 0 ≤ q then ⌊q⌋ else ⌈q⌉

/-- `(uint32_t)(a - b)`: the well-defined wrapping delta of two uint32
loop-counter values. -/
def u32delta (a b : Nat) : Nat := (a % 2 ^ 32 + (2 ^ 32 - b % 2 ^ 32)) % 2 ^ 32

/-- `Controller::set_error`: or the fault bit into the controller's own
sticky error word and raise the generic controller-failed bit on the axis. -/
def set_error (s : ControllerState) (e : Nat) : ControllerState :=
  { s with error := s.error ||| e,
           axis_error := s.axis_error ||| AXIS_ERROR_CONTROLLER_FAILED }

/-- Elapsed trajectory time: uint32 loop-counter delta times the cycle
period (`update`, trajectory branch). -/
def trajElapsed (s : ControllerState) (inp : Inputs) : ℚ :=
  (u32delta inp.loop_counter s.traj_start_loop_count : ℚ) * inp.current_meas_period

/-- Trajectory-control branch of `update`: past the planner's duration,
drop to position mode and zero the velocity/current setpoints; otherwise
sample the planner and load all three setpoints from the sample. -/
def trajStage (s : ControllerState) (inp : Inputs) : ControllerState :=
  if s.config.control_mode = CTRL_MODE_TRAJECTORY_CONTROL then
    if trajElapsed s inp > inp.traj_Tf then
      { s with config := { s.config with control_mode := CTRL_MODE_POSITION_CONTROL },
               vel_setpoint := 0,
               current_setpoint := 0 }
    else
      { s with pos_setpoint := (inp.traj_eval (trajElapsed s inp)).Y,
               vel_setpoint := (inp.traj_eval (trajElapsed s inp)).Yd,
               current_setpoint := (inp.traj_eval (trajElapsed s inp)).Ydd * inp.A_per_css }
  else s

/-- Ramp-rate-limited velocity setpoint branch of `update`. -/
def rampStage (s : ControllerState) (inp : Inputs) : ControllerState :=
  if s.config.control_mode = CTRL_MODE_VELOCITY_CONTROL ∧ s.config.vel_ramp_enable then
    { s with vel_setpoint :=
        (s.vel_setpoint + clamp_bidirf (s.vel_ramp_target - s.vel_setpoint)
          (inp.current_meas_period * s.config.vel_ramp_rate)) }
  else s

/-- Position-control branch of `update`: returns the updated state (the
setpoint may be normalized modulo `cpr`) and the velocity demand
`vel_des`. -/
def posLoop (s : ControllerState) (inp : Inputs) (pos_estimate : ℚ) :
    ControllerState × ℚ :=
  if CTRL_MODE_POSITION_CONTROL ≤ s.config.control_mode then
    if s.config.setpoints_in_cpr then
      let cpr : ℚ := (inp.encoder_cpr : ℚ)
      let ps := fmodf_pos s.pos_setpoint cpr
      ({ s with pos_setpoint := ps },
        s.vel_setpoint +
          s.config.pos_gain * wrap_pm (ps - inp.encoder_pos_cpr) (1 / 2 * cpr))
    else
      (s, s.vel_setpoint + s.config.pos_gain * (s.pos_setpoint - pos_estimate))
  else (s, s.vel_setpoint)

/-- Velocity limiting in `update`: the two sequential conditional clamps
of `vel_des` to `±vel_lim`. -/
def limitVel (vel_des vel_lim : ℚ) : ℚ :=
  let v1 := if vel_des > vel_lim then vel_lim else vel_des
  if v1 < -vel_lim then -vel_lim else v1

/-- The overspeed-fault condition in `update`:
`vel_limit_tolerance > 0` and `|vel_estimate| > tolerance * vel_limit`. -/
def overspeedTrip (cfg : Config) (vel_estimate : ℚ) : Prop :=
  0 < cfg.vel_limit_tolerance ∧
    cfg.vel_limit_tolerance * cfg.vel_limit < |vel_estimate|

instance (cfg : Config) (v : ℚ) : Decidable (overspeedTrip cfg v) :=
  inferInstanceAs (Decidable (_ ∧ _))

/-- `std::copysignf`: magnitude of `x` with the sign of `s`
(rationals have no negative zero, so `s = 0` yields `|x|`). -/
def copysignQ (x s : ℚ) : ℚ := if s < 0 then -|x| else |x|

/-- Torque-per-amp gain scheduling in `update`: for an ACIM motor divide
both velocity-loop gains by the rotor flux, floored in magnitude at
`acim_gain_min_flux` (sign preserving). -/
def scheduledGains (cfg : Config) (inp : Inputs) : ℚ × ℚ :=
  if inp.motor_is_acim then
    let f0 := inp.acim_rotor_flux
    let f := if |f0| < inp.acim_gain_min_flux then copysignQ inp.acim_gain_min_flux f0 else f0
    (cfg.vel_gain / f, cfg.vel_integrator_gain / f)
  else
    (cfg.vel_gain, cfg.vel_integrator_gain)

/-- The fractional cogging-map index `idxf = count_in_cpr / cpr * cogmap_size`. -/
def cogIdxf (cfg : Config) (inp : Inputs) : ℚ :=
  (inp.encoder_count_in_cpr : ℚ) / (inp.encoder_cpr : ℚ) * (cfg.cogmap_size : ℚ)

/-- The integer cogging-map index `idx = (size_t)idxf`. -/
def cogIdx (cfg : Config) (inp : Inputs) : Nat :=
  (ratTrunc (cogIdxf cfg inp)).toNat

/-- The second bracketing cogging-map index `idx1 = (idx + 1) % cogmap_size`. -/
def cogIdx1 (cfg : Config) (inp : Inputs) : Nat :=
  (cogIdx cfg inp + 1) % cfg.cogmap_size

/-- The interpolation weight `frac = idxf - (float)idx`. -/
def cogFrac (cfg : Config) (inp : Inputs) : ℚ :=
  cogIdxf cfg inp - (cogIdx cfg inp : ℚ)

/-- The linearly interpolated cogging-map value
`(1 - frac) * cogmap[idx] + frac * cogmap[idx1]`. -/
def cogValue (cfg : Config) (inp : Inputs) : ℚ :=
  (1 - cogFrac cfg inp) * cfg.cogmap.getD (cogIdx cfg inp) 0 +
    cogFrac cfg inp * cfg.cogmap.getD (cogIdx1 cfg inp) 0

/-- Online cogging-map adaptation in the velocity-control branch of
`update`: add the correction to the two bracketing entries weighted by
`(1 - frac)` and `frac`, then clamp each to `±cogmap_max_current`,
in the source's statement order. -/
def cogmapAdapt (cfg : Config) (inp : Inputs) (v_err : ℚ) : List ℚ :=
  let idx := cogIdx cfg inp
  let idx1 := cogIdx1 cfg inp
  let frac := cogFrac cfg inp
  let corr := cfg.cogmap_integrator_gain * v_err * inp.current_meas_period
  let m1 := cfg.cogmap.set idx (cfg.cogmap.getD idx 0 + (1 - frac) * corr)
  let m2 := m1.set idx1 (m1.getD idx1 0 + frac * corr)
  let m3 := m2.set idx (clamp_bidirf (m2.getD idx 0) cfg.cogmap_max_current)
  m3.set idx1 (clamp_bidirf (m3.getD idx1 0) cfg.cogmap_max_current)

/-- Current limiting in `update`: the two sequential conditional clamps of
the accumulator to `±Ilim`; the `Bool` is the `limited` flag. -/
def clampCurrent (Iq Ilim : ℚ) : Bool × ℚ :=
  if Iq > Ilim then
    if Ilim < -Ilim then (true, -Ilim) else (true, Ilim)
  else
    if Iq < -Ilim then (true, -Ilim) else (false, Iq)

/-- The state after trajectory evaluation and the velocity ramp. -/
def preloopState (s : ControllerState) (inp : Inputs) : ControllerState :=
  rampStage (trajStage s inp) inp

/-- The state after the position loop (the position setpoint may have been
normalized modulo `cpr`). -/
def postPosState (s : ControllerState) (inp : Inputs) (pos_estimate : ℚ) :
    ControllerState :=
  (posLoop (preloopState s inp) inp pos_estimate).1

/-- The velocity demand `vel_des` after the position loop and velocity
limiting. -/
def velDemand (s : ControllerState) (inp : Inputs) (pos_estimate : ℚ) : ℚ :=
  limitVel (posLoop (preloopState s inp) inp pos_estimate).2
    (postPosState s inp pos_estimate).config.vel_limit

/-- The current accumulator `Iq` of one cycle just before current
limiting: feedforward (`current_setpoint_` after the setpoint-source
stages), plus the interpolated cogging value, plus — in velocity control
and above — the proportional term `vel_gain * v_err`, plus the persisted
integrator.  Every read here happens before any write in the source, so
the accumulation is evaluated on the post-position-loop state. -/
def rawCurrent (s : ControllerState) (inp : Inputs) (pos_estimate vel_estimate : ℚ) : ℚ :=
  let s3 := postPosState s inp pos_estimate
  let Iq1 := s3.current_setpoint + cogValue s3.config inp
  let Iq2 :=
    if CTRL_MODE_VELOCITY_CONTROL ≤ s3.config.control_mode then
      Iq1 + (scheduledGains s3.config inp).1 * (velDemand s inp pos_estimate - vel_estimate)
    else Iq1
  Iq2 + s3.vel_integrator_current

/-- The non-aborted tail of `update` (everything after the overspeed
check): gain scheduling, cogging lookup, velocity loop with cogging-map
adaptation, integrator feed-in, current limiting and the anti-windup
integrator update.  Returns the final state and the output current. -/
def mainPath (s : ControllerState) (inp : Inputs) (pos_estimate vel_estimate : ℚ) :
    ControllerState × ℚ :=
  let s3 := postPosState s inp pos_estimate
  let gi := (scheduledGains s3.config inp).2
  let v_err := velDemand s inp pos_estimate - vel_estimate
  let s4 := { s3 with cogmap_current := cogValue s3.config inp }
  let s5 :=
    if CTRL_MODE_VELOCITY_CONTROL ≤ s4.config.control_mode then
      { s4 with config := { s4.config with cogmap := cogmapAdapt s4.config inp v_err },
                cogmap_correction_pwr := s4.cogmap_correction_pwr +
                  1 / 1000 * (s4.config.cogmap_integrator_gain * v_err *
                    (s4.config.cogmap_integrator_gain * v_err) - s4.cogmap_correction_pwr) }
    else s4
  let limited := (clampCurrent (rawCurrent s inp pos_estimate vel_estimate)
    inp.effective_current_lim).1
  let Iq4 := (clampCurrent (rawCurrent s inp pos_estimate vel_estimate)
    inp.effective_current_lim).2
  let s6 :=
    if s5.config.control_mode < CTRL_MODE_VELOCITY_CONTROL then
      { s5 with vel_integrator_current := 0 }
    else if limited then
      { s5 with vel_integrator_current := s5.vel_integrator_current * (99 / 100) }
    else
      { s5 with vel_integrator_current :=
          s5.vel_integrator_current + gi * inp.current_meas_period * v_err }
  (s6, Iq4)

/-- `Controller::update`: the full per-cycle evaluation.  Returns the new
state and `some Iq` on success (`return true`) or `none` when the
overspeed check aborts the cycle (`return false`). -/
def update (s : ControllerState) (inp : Inputs) (pos_estimate vel_estimate : ℚ) :
    ControllerState × Option ℚ :=
  if overspeedTrip (postPosState s inp pos_estimate).config vel_estimate then
    (set_error (postPosState s inp pos_estimate) ERROR_OVERSPEED, none)
  else
    ((mainPath s inp pos_estimate vel_estimate).1,
      some (mainPath s inp pos_estimate vel_estimate).2)

/-- `Controller::update` with the output pointer made explicit: `ptr` is
the pointee cell (`none` models a null pointer).  The source writes
`*current_setpoint_output = Iq` only behind a null check and only on the
`return true` path. -/
def updateWithPtr (s : ControllerState) (inp : Inputs)
    (pos_estimate vel_estimate : ℚ) (ptr : Option ℚ) :
    (ControllerState × Bool) × Option ℚ :=
  match update s inp pos_estimate vel_estimate with
  | (s', some iq) => ((s', true), ptr.map fun _ => iq)
  | (s', none) => ((s', false), ptr)

/-! ### Helper lemmas about the stages -/

lemma clampCurrent_abs_le (Iq Ilim : ℚ) (h : 0 ≤ Ilim) :
    |(clampCurrent Iq Ilim).2| ≤ Ilim := by
  unfold clampCurrent
  split_ifs with h1 h2 h3 <;> dsimp only <;> rw [abs_le] <;> constructor <;> linarith

lemma clampCurrent_of_within (Iq Ilim : ℚ) (h1 : Iq ≤ Ilim) (h2 : -Ilim ≤ Iq) :
    clampCurrent Iq Ilim = (false, Iq) := by
  unfold clampCurrent
  rw [if_neg (not_lt.2 h1), if_neg (not_lt.2 h2)]

lemma clampCurrent_fst_of_not_within (Iq Ilim : ℚ) (h : ¬(Iq ≤ Ilim ∧ -Ilim ≤ Iq)) :
    (clampCurrent Iq Ilim).1 = true := by
  unfold clampCurrent
  split_ifs with ha hb hb
  · rfl
  · rfl
  · rfl
  · exfalso
    rcases not_and_or.1 h with h' | h'
    · exact ha (lt_of_not_le h')
    · exact hb (lt_of_not_le h')

lemma fmodf_pos_nonneg (x y : ℚ) (hy : 0 < y) : 0 ≤ fmodf_pos x y := by
  unfold fmodf_pos
  have h := Int.floor_le (x / y)
  have h2 : y * (⌊x / y⌋ : ℚ) ≤ y * (x / y) := by
    exact mul_le_mul_of_nonneg_left h (le_of_lt hy)
  rw [mul_div_cancel₀ x (ne_of_gt hy)] at h2
  linarith

lemma fmodf_pos_lt (x y : ℚ) (hy : 0 < y) : fmodf_pos x y < y := by
  unfold fmodf_pos
  have h := Int.lt_floor_add_one (x / y)
  have h2 : y * (x / y) < y * ((⌊x / y⌋ : ℚ) + 1) := by
    exact mul_lt_mul_of_pos_left h hy
  rw [mul_div_cancel₀ x (ne_of_gt hy)] at h2
  nlinarith

lemma wrap_pm_mem (x pm : ℚ) (hpm : 0 < pm) :
    -pm ≤ wrap_pm x pm ∧ wrap_pm x pm < pm := by
  unfold wrap_pm
  have h1 := fmodf_pos_nonneg (x + pm) (2 * pm) (by linarith)
  have h2 := fmodf_pos_lt (x + pm) (2 * pm) (by linarith)
  constructor <;> linarith

lemma trajStage_vel_integrator (s : ControllerState) (inp : Inputs) :
    (trajStage s inp).vel_integrator_current = s.vel_integrator_current := by
  unfold trajStage; split_ifs <;> rfl

lemma rampStage_vel_integrator (s : ControllerState) (inp : Inputs) :
    (rampStage s inp).vel_integrator_current = s.vel_integrator_current := by
  unfold rampStage; split_ifs <;> rfl

lemma posLoop_fst_vel_integrator (s : ControllerState) (inp : Inputs) (pe : ℚ) :
    (posLoop s inp pe).1.vel_integrator_current = s.vel_integrator_current := by
  unfold posLoop; split_ifs <;> rfl

lemma postPosState_vel_integrator (s : ControllerState) (inp : Inputs) (pe : ℚ) :
    (postPosState s inp pe).vel_integrator_current = s.vel_integrator_current := by
  unfold postPosState preloopState
  rw [posLoop_fst_vel_integrator, rampStage_vel_integrator, trajStage_vel_integrator]

lemma trajStage_config_eq (s : ControllerState) (inp : Inputs) :
    (trajStage s inp).config =
      { s.config with control_mode := (trajStage s inp).config.control_mode } := by
  unfold trajStage; split_ifs <;> rfl

lemma rampStage_config (s : ControllerState) (inp : Inputs) :
    (rampStage s inp).config = s.config := by
  unfold rampStage; split_ifs <;> rfl

lemma posLoop_fst_config (s : ControllerState) (inp : Inputs) (pe : ℚ) :
    (posLoop s inp pe).1.config = s.config := by
  unfold posLoop; split_ifs <;> rfl

lemma postPosState_config_eq (s : ControllerState) (inp : Inputs) (pe : ℚ) :
    (postPosState s inp pe).config =
      { s.config with control_mode := (postPosState s inp pe).config.control_mode } := by
  unfold postPosState preloopState
  rw [posLoop_fst_config, rampStage_config, trajStage_config_eq]

lemma trajStage_mode (s : ControllerState) (inp : Inputs) :
    (trajStage s inp).config.control_mode =
      if s.config.control_mode = CTRL_MODE_TRAJECTORY_CONTROL ∧
          trajElapsed s inp > inp.traj_Tf then
        CTRL_MODE_POSITION_CONTROL
      else s.config.control_mode := by
  unfold trajStage
  split_ifs with h1 h2 h3 h3 <;> first | rfl | (exact absurd ⟨h1, h2⟩ h3) | tauto

lemma postPosState_mode (s : ControllerState) (inp : Inputs) (pe : ℚ) :
    (postPosState s inp pe).config.control_mode = (trajStage s inp).config.control_mode := by
  unfold postPosState preloopState
  rw [posLoop_fst_config, rampStage_config]

lemma trajStage_mode_ge_iff (s : ControllerState) (inp : Inputs) (k : Nat)
    (hk : k ≤ CTRL_MODE_POSITION_CONTROL) :
    k ≤ (trajStage s inp).config.control_mode ↔ k ≤ s.config.control_mode := by
  rw [trajStage_mode]
  split_ifs with h
  · rw [h.1]
    unfold CTRL_MODE_POSITION_CONTROL CTRL_MODE_TRAJECTORY_CONTROL at *
    omega
  · exact Iff.rfl

lemma trajStage_error (s : ControllerState) (inp : Inputs) :
    (trajStage s inp).error = s.error ∧ (trajStage s inp).axis_error = s.axis_error := by
  unfold trajStage; split_ifs <;> exact ⟨rfl, rfl⟩

lemma rampStage_error (s : ControllerState) (inp : Inputs) :
    (rampStage s inp).error = s.error ∧ (rampStage s inp).axis_error = s.axis_error := by
  unfold rampStage; split_ifs <;> exact ⟨rfl, rfl⟩

lemma posLoop_fst_error (s : ControllerState) (inp : Inputs) (pe : ℚ) :
    (posLoop s inp pe).1.error = s.error ∧ (posLoop s inp pe).1.axis_error = s.axis_error := by
  unfold posLoop; split_ifs <;> exact ⟨rfl, rfl⟩

lemma postPosState_error (s : ControllerState) (inp : Inputs) (pe : ℚ) :
    (postPosState s inp pe).error = s.error ∧
      (postPosState s inp pe).axis_error = s.axis_error := by
  unfold postPosState preloopState
  refine ⟨?_, ?_⟩
  · rw [(posLoop_fst_error _ _ _).1, (rampStage_error _ _).1, (trajStage_error _ _).1]
  · rw [(posLoop_fst_error _ _ _).2, (rampStage_error _ _).2, (trajStage_error _ _).2]

lemma rampStage_current_setpoint (s : ControllerState) (inp : Inputs) :
    (rampStage s inp).current_setpoint = s.current_setpoint := by
  unfold rampStage; split_ifs <;> rfl

lemma posLoop_fst_current_setpoint (s : ControllerState) (inp : Inputs) (pe : ℚ) :
    (posLoop s inp pe).1.current_setpoint = s.current_setpoint := by
  unfold posLoop; split_ifs <;> rfl

lemma postPosState_current_setpoint (s : ControllerState) (inp : Inputs) (pe : ℚ) :
    (postPosState s inp pe).current_setpoint = (trajStage s inp).current_setpoint := by
  unfold postPosState preloopState
  rw [posLoop_fst_current_setpoint, rampStage_current_setpoint]

lemma scheduledGains_mode_congr (cfg : Config) (m : Nat) (inp : Inputs) :
    scheduledGains { cfg with control_mode := m } inp = scheduledGains cfg inp := rfl

lemma cogValue_mode_congr (cfg : Config) (m : Nat) (inp : Inputs) :
    cogValue { cfg with control_mode := m } inp = cogValue cfg inp := rfl

lemma cogmapAdapt_mode_congr (cfg : Config) (m : Nat) (inp : Inputs) (v : ℚ) :
    cogmapAdapt { cfg with control_mode := m } inp v = cogmapAdapt cfg inp v := rfl

lemma overspeedTrip_mode_congr (cfg : Config) (m : Nat) (v : ℚ) :
    overspeedTrip { cfg with control_mode := m } v ↔ overspeedTrip cfg v := Iff.rfl

lemma postPosState_cogValue (s : ControllerState) (inp : Inputs) (pe : ℚ) :
    cogValue (postPosState s inp pe).config inp = cogValue s.config inp := by
  rw [postPosState_config_eq]
  exact cogValue_mode_congr s.config _ inp

lemma postPosState_scheduledGains (s : ControllerState) (inp : Inputs) (pe : ℚ) :
    scheduledGains (postPosState s inp pe).config inp = scheduledGains s.config inp := by
  rw [postPosState_config_eq]
  exact scheduledGains_mode_congr s.config _ inp

lemma postPosState_mode_ge_iff (s : ControllerState) (inp : Inputs) (pe : ℚ) :
    CTRL_MODE_VELOCITY_CONTROL ≤ (postPosState s inp pe).config.control_mode ↔
      CTRL_MODE_VELOCITY_CONTROL ≤ s.config.control_mode := by
  rw [postPosState_mode]
  exact trajStage_mode_ge_iff s inp _
    (by unfold CTRL_MODE_VELOCITY_CONTROL CTRL_MODE_POSITION_CONTROL; omega)

/-- The pre-clamp accumulator as the spec's four-term sum over the
pre-call state. -/
lemma rawCurrent_eq (s : ControllerState) (inp : Inputs) (pe ve : ℚ) :
    rawCurrent s inp pe ve =
      (trajStage s inp).current_setpoint + cogValue s.config inp +
        (if CTRL_MODE_VELOCITY_CONTROL ≤ s.config.control_mode then
          (scheduledGains s.config inp).1 * (velDemand s inp pe - ve)
        else 0) + s.vel_integrator_current := by
  unfold rawCurrent
  dsimp only
  have hmode := postPosState_mode_ge_iff s inp pe
  have hcs := postPosState_current_setpoint s inp pe
  have hvi := postPosState_vel_integrator s inp pe
  by_cases h : CTRL_MODE_VELOCITY_CONTROL ≤ s.config.control_mode
  · rw [if_pos (hmode.2 h), if_pos h, postPosState_cogValue, postPosState_scheduledGains,
      hcs, hvi]
  · rw [if_neg (fun hc => h (hmode.1 hc)), if_neg h, postPosState_cogValue, hcs, hvi]
    try ring

lemma mainPath_snd_eq (s : ControllerState) (inp : Inputs) (pe ve : ℚ) :
    (mainPath s inp pe ve).2 =
      (clampCurrent (rawCurrent s inp pe ve) inp.effective_current_lim).2 := rfl

lemma not_mode_lt_of_ge (s : ControllerState) (inp : Inputs) (pe : ℚ)
    (h : CTRL_MODE_VELOCITY_CONTROL ≤ s.config.control_mode) :
    ¬((postPosState s inp pe).config.control_mode < CTRL_MODE_VELOCITY_CONTROL) :=
  not_lt.2 ((postPosState_mode_ge_iff s inp pe).2 h)

lemma mainPath_fst_vel_integrator (s : ControllerState) (inp : Inputs) (pe ve : ℚ) :
    (mainPath s inp pe ve).1.vel_integrator_current =
      if s.config.control_mode < CTRL_MODE_VELOCITY_CONTROL then 0
      else if (clampCurrent (rawCurrent s inp pe ve) inp.effective_current_lim).1 then
        s.vel_integrator_current * (99 / 100)
      else
        s.vel_integrator_current +
          (scheduledGains s.config inp).2 * inp.current_meas_period *
            (velDemand s inp pe - ve) := by
  unfold mainPath
  dsimp only
  have hmode := postPosState_mode_ge_iff s inp pe
  have hvi := postPosState_vel_integrator s inp pe
  by_cases h : CTRL_MODE_VELOCITY_CONTROL ≤ s.config.control_mode
  · rw [if_pos (hmode.2 h)]
    dsimp only
    rw [if_neg (not_mode_lt_of_ge s inp pe h), if_neg (not_lt.2 h)]
    split_ifs
    · dsimp only; rw [hvi]
    · dsimp only; rw [postPosState_scheduledGains, hvi]
  · rw [if_neg (fun hc => h (hmode.1 hc))]
    dsimp only
    rw [if_pos (lt_of_not_le (fun hc => h ((postPosState_mode_ge_iff s inp pe).1 hc))),
      if_pos (lt_of_not_le h)]

lemma mainPath_fst_cogmap (s : ControllerState) (inp : Inputs) (pe ve : ℚ) :
    (mainPath s inp pe ve).1.config.cogmap =
      if CTRL_MODE_VELOCITY_CONTROL ≤ s.config.control_mode then
        cogmapAdapt s.config inp (velDemand s inp pe - ve)
      else s.config.cogmap := by
  unfold mainPath
  dsimp only
  have hmode := postPosState_mode_ge_iff s inp pe
  by_cases h : CTRL_MODE_VELOCITY_CONTROL ≤ s.config.control_mode
  · rw [if_pos (hmode.2 h), if_pos h]
    split_ifs <;> dsimp only <;>
      rw [postPosState_config_eq s inp pe, cogmapAdapt_mode_congr]
  · rw [if_neg (fun hc => h (hmode.1 hc)), if_neg h]
    split_ifs <;> dsimp only <;> rw [postPosState_config_eq s inp pe]

lemma mainPath_fst_error (s : ControllerState) (inp : Inputs) (pe ve : ℚ) :
    (mainPath s inp pe ve).1.error = s.error ∧
      (mainPath s inp pe ve).1.axis_error = s.axis_error := by
  unfold mainPath
  dsimp only
  constructor <;> split_ifs <;> dsimp only <;>
    first
      | exact (postPosState_error s inp pe).1
      | exact (postPosState_error s inp pe).2

lemma mainPath_fst_pos_setpoint (s : ControllerState) (inp : Inputs) (pe ve : ℚ) :
    (mainPath s inp pe ve).1.pos_setpoint = (postPosState s inp pe).pos_setpoint := by
  unfold mainPath
  dsimp only
  split_ifs <;> rfl

lemma postPosState_vel_setpoint (s : ControllerState) (inp : Inputs) (pe : ℚ) :
    (postPosState s inp pe).vel_setpoint = (preloopState s inp).vel_setpoint := by
  unfold postPosState posLoop
  split_ifs <;> rfl

lemma mainPath_fst_vel_setpoint (s : ControllerState) (inp : Inputs) (pe ve : ℚ) :
    (mainPath s inp pe ve).1.vel_setpoint = (preloopState s inp).vel_setpoint := by
  unfold mainPath
  dsimp only
  split_ifs <;> dsimp only <;> exact postPosState_vel_setpoint s inp pe

lemma mainPath_fst_current_setpoint (s : ControllerState) (inp : Inputs) (pe ve : ℚ) :
    (mainPath s inp pe ve).1.current_setpoint = (trajStage s inp).current_setpoint := by
  unfold mainPath
  dsimp only
  split_ifs <;> dsimp only <;> exact postPosState_current_setpoint s inp pe

lemma mainPath_fst_mode (s : ControllerState) (inp : Inputs) (pe ve : ℚ) :
    (mainPath s inp pe ve).1.config.control_mode =
      (trajStage s inp).config.control_mode := by
  unfold mainPath
  dsimp only
  split_ifs <;> dsimp only <;> exact postPosState_mode s inp pe

lemma overspeedTrip_postPos_iff (s : ControllerState) (inp : Inputs) (pe ve : ℚ) :
    overspeedTrip (postPosState s inp pe).config ve ↔ overspeedTrip s.config ve := by
  rw [postPosState_config_eq]
  exact overspeedTrip_mode_congr s.config _ ve

lemma update_of_trip (s : ControllerState) (inp : Inputs) (pe ve : ℚ)
    (h : overspeedTrip s.config ve) :
    update s inp pe ve = (set_error (postPosState s inp pe) ERROR_OVERSPEED, none) := by
  unfold update
  rw [if_pos ((overspeedTrip_postPos_iff s inp pe ve).2 h)]

lemma update_of_no_trip (s : ControllerState) (inp : Inputs) (pe ve : ℚ)
    (h : ¬overspeedTrip s.config ve) :
    update s inp pe ve =
      ((mainPath s inp pe ve).1, some (mainPath s inp pe ve).2) := by
  unfold update
  rw [if_neg (fun hc => h ((overspeedTrip_postPos_iff s inp pe ve).1 hc))]

lemma update_snd_none_iff (s : ControllerState) (inp : Inputs) (pe ve : ℚ) :
    (update s inp pe ve).2 = none ↔ overspeedTrip s.config ve := by
  by_cases h : overspeedTrip s.config ve
  · rw [update_of_trip s inp pe ve h]
    simp [h]
  · rw [update_of_no_trip s inp pe ve h]
    simp [h]

lemma set_error_config (s : ControllerState) (e : Nat) :
    (set_error s e).config = s.config := rfl

lemma set_error_pos_setpoint (s : ControllerState) (e : Nat) :
    (set_error s e).pos_setpoint = s.pos_setpoint := rfl

lemma set_error_vel_setpoint (s : ControllerState) (e : Nat) :
    (set_error s e).vel_setpoint = s.vel_setpoint := rfl

lemma set_error_current_setpoint (s : ControllerState) (e : Nat) :
    (set_error s e).current_setpoint = s.current_setpoint := rfl

lemma set_error_error (s : ControllerState) (e : Nat) :
    (set_error s e).error = s.error ||| e ∧
      (set_error s e).axis_error = s.axis_error ||| AXIS_ERROR_CONTROLLER_FAILED :=
  ⟨rfl, rfl⟩

lemma update_fst_mode (s : ControllerState) (inp : Inputs) (pe ve : ℚ) :
    (update s inp pe ve).1.config.control_mode =
      (trajStage s inp).config.control_mode := by
  by_cases h : overspeedTrip s.config ve
  · rw [update_of_trip s inp pe ve h]
    exact postPosState_mode s inp pe
  · rw [update_of_no_trip s inp pe ve h]
    exact mainPath_fst_mode s inp pe ve

lemma update_fst_pos_setpoint (s : ControllerState) (inp : Inputs) (pe ve : ℚ) :
    (update s inp pe ve).1.pos_setpoint = (postPosState s inp pe).pos_setpoint := by
  by_cases h : overspeedTrip s.config ve
  · rw [update_of_trip s inp pe ve h]
    rfl
  · rw [update_of_no_trip s inp pe ve h]
    exact mainPath_fst_pos_setpoint s inp pe ve

lemma update_fst_vel_setpoint (s : ControllerState) (inp : Inputs) (pe ve : ℚ) :
    (update s inp pe ve).1.vel_setpoint = (preloopState s inp).vel_setpoint := by
  by_cases h : overspeedTrip s.config ve
  · rw [update_of_trip s inp pe ve h]
    exact postPosState_vel_setpoint s inp pe
  · rw [update_of_no_trip s inp pe ve h]
    exact mainPath_fst_vel_setpoint s inp pe ve

lemma update_fst_current_setpoint (s : ControllerState) (inp : Inputs) (pe ve : ℚ) :
    (update s inp pe ve).1.current_setpoint = (trajStage s inp).current_setpoint := by
  by_cases h : overspeedTrip s.config ve
  · rw [update_of_trip s inp pe ve h]
    exact postPosState_current_setpoint s inp pe
  · rw [update_of_no_trip s inp pe ve h]
    exact mainPath_fst_current_setpoint s inp pe ve

lemma trajStage_done (s : ControllerState) (inp : Inputs)
    (hm : s.config.control_mode = CTRL_MODE_TRAJECTORY_CONTROL)
    (ht : trajElapsed s inp > inp.traj_Tf) :
    trajStage s inp =
      { s with config := { s.config with control_mode := CTRL_MODE_POSITION_CONTROL },
               vel_setpoint := 0,
               current_setpoint := 0 } := by
  unfold trajStage
  rw [if_pos hm, if_pos ht]

lemma trajStage_run (s : ControllerState) (inp : Inputs)
    (hm : s.config.control_mode = CTRL_MODE_TRAJECTORY_CONTROL)
    (ht : ¬(trajElapsed s inp > inp.traj_Tf)) :
    trajStage s inp =
      { s with pos_setpoint := (inp.traj_eval (trajElapsed s inp)).Y,
               vel_setpoint := (inp.traj_eval (trajElapsed s inp)).Yd,
               current_setpoint := (inp.traj_eval (trajElapsed s inp)).Ydd * inp.A_per_css } := by
  unfold trajStage
  rw [if_pos hm, if_neg ht]

lemma trajStage_of_mode_ne (s : ControllerState) (inp : Inputs)
    (hm : s.config.control_mode ≠ CTRL_MODE_TRAJECTORY_CONTROL) :
    trajStage s inp = s := by
  unfold trajStage
  rw [if_neg hm]

lemma rampStage_of_mode_ne (s : ControllerState) (inp : Inputs)
    (hm : s.config.control_mode ≠ CTRL_MODE_VELOCITY_CONTROL) :
    rampStage s inp = s := by
  unfold rampStage
  rw [if_neg (fun hc => hm hc.1)]

lemma posLoop_fst_pos_setpoint (s : ControllerState) (inp : Inputs) (pe : ℚ) :
    (posLoop s inp pe).1.pos_setpoint =
      if CTRL_MODE_POSITION_CONTROL ≤ s.config.control_mode ∧
          s.config.setpoints_in_cpr = true then
        fmodf_pos s.pos_setpoint (inp.encoder_cpr : ℚ)
      else s.pos_setpoint := by
  unfold posLoop
  by_cases h1 : CTRL_MODE_POSITION_CONTROL ≤ s.config.control_mode
  · by_cases h2 : s.config.setpoints_in_cpr = true
    · rw [if_pos h1, if_pos h2, if_pos ⟨h1, h2⟩]
    · rw [if_pos h1, if_neg h2, if_neg (fun hc => h2 hc.2)]
  · rw [if_neg h1, if_neg (fun hc => h1 hc.1)]

lemma posLoop_snd_cpr (s : ControllerState) (inp : Inputs) (pe : ℚ)
    (hm : CTRL_MODE_POSITION_CONTROL ≤ s.config.control_mode)
    (hc : s.config.setpoints_in_cpr = true) :
    (posLoop s inp pe).2 =
      s.vel_setpoint + s.config.pos_gain *
        wrap_pm (fmodf_pos s.pos_setpoint (inp.encoder_cpr : ℚ) - inp.encoder_pos_cpr)
          (1 / 2 * (inp.encoder_cpr : ℚ)) := by
  unfold posLoop
  rw [if_pos hm, if_pos hc]

lemma posLoop_snd_linear (s : ControllerState) (inp : Inputs) (pe : ℚ)
    (hm : CTRL_MODE_POSITION_CONTROL ≤ s.config.control_mode)
    (hc : s.config.setpoints_in_cpr = false) :
    (posLoop s inp pe).2 =
      s.vel_setpoint + s.config.pos_gain * (s.pos_setpoint - pe) := by
  unfold posLoop
  rw [if_pos hm, if_neg (by rw [hc]; exact Bool.false_ne_true)]

lemma preloopState_config_eq (s : ControllerState) (inp : Inputs) :
    (preloopState s inp).config =
      { s.config with control_mode := (preloopState s inp).config.control_mode } := by
  unfold preloopState
  rw [rampStage_config, trajStage_config_eq]

lemma preloopState_mode (s : ControllerState) (inp : Inputs) :
    (preloopState s inp).config.control_mode = (trajStage s inp).config.control_mode := by
  unfold preloopState
  rw [rampStage_config]

lemma cogIdxf_nonneg (cfg : Config) (inp : Inputs) (h0 : 0 ≤ inp.encoder_count_in_cpr) :
    0 ≤ cogIdxf cfg inp := by
  unfold cogIdxf
  have h1 : (0 : ℚ) ≤ (inp.encoder_count_in_cpr : ℚ) := by exact_mod_cast h0
  have h2 : (0 : ℚ) ≤ (inp.encoder_cpr : ℚ) := by positivity
  positivity

lemma cogIdxf_lt (cfg : Config) (inp : Inputs)
    (h0 : 0 ≤ inp.encoder_count_in_cpr)
    (h1 : inp.encoder_count_in_cpr < (inp.encoder_cpr : Int))
    (hsz : 0 < cfg.cogmap_size) :
    cogIdxf cfg inp < (cfg.cogmap_size : ℚ) := by
  unfold cogIdxf
  have hcpr : (0 : ℚ) < (inp.encoder_cpr : ℚ) := by
    have : (0 : ℤ) < (inp.encoder_cpr : ℤ) := lt_of_le_of_lt h0 h1
    exact_mod_cast this
  have hratlt : (inp.encoder_count_in_cpr : ℚ) / (inp.encoder_cpr : ℚ) < 1 := by
    rw [div_lt_one hcpr]
    exact_mod_cast h1
  have hszq : (0 : ℚ) < (cfg.cogmap_size : ℚ) := by exact_mod_cast hsz
  calc (inp.encoder_count_in_cpr : ℚ) / (inp.encoder_cpr : ℚ) * (cfg.cogmap_size : ℚ)
      < 1 * (cfg.cogmap_size : ℚ) := by
        exact mul_lt_mul_of_pos_right hratlt hszq
    _ = (cfg.cogmap_size : ℚ) := one_mul _

lemma ratTrunc_of_nonneg (q : ℚ) (h : 0 ≤ q) : ratTrunc q = ⌊q⌋ := by
  unfold ratTrunc
  rw [if_pos h]

lemma cogIdx_cast (cfg : Config) (inp : Inputs) (h0 : 0 ≤ inp.encoder_count_in_cpr) :
    ((cogIdx cfg inp : ℤ) : ℚ) = (⌊cogIdxf cfg inp⌋ : ℚ) := by
  unfold cogIdx
  rw [ratTrunc_of_nonneg _ (cogIdxf_nonneg cfg inp h0),
    Int.toNat_of_nonneg (Int.floor_nonneg.2 (cogIdxf_nonneg cfg inp h0))]

lemma cogIdx_lt_size (cfg : Config) (inp : Inputs)
    (h0 : 0 ≤ inp.encoder_count_in_cpr)
    (h1 : inp.encoder_count_in_cpr < (inp.encoder_cpr : Int))
    (hsz : 0 < cfg.cogmap_size) :
    cogIdx cfg inp < cfg.cogmap_size := by
  unfold cogIdx
  rw [ratTrunc_of_nonneg _ (cogIdxf_nonneg cfg inp h0)]
  have hlt : ⌊cogIdxf cfg inp⌋ < (cfg.cogmap_size : ℤ) :=
    Int.floor_lt.2 (by exact_mod_cast cogIdxf_lt cfg inp h0 h1 hsz)
  have hge : 0 ≤ ⌊cogIdxf cfg inp⌋ := Int.floor_nonneg.2 (cogIdxf_nonneg cfg inp h0)
  omega

lemma cogIdx1_lt_size (cfg : Config) (inp : Inputs) (hsz : 0 < cfg.cogmap_size) :
    cogIdx1 cfg inp < cfg.cogmap_size := by
  unfold cogIdx1
  exact Nat.mod_lt _ hsz

lemma cogIdx_ne_cogIdx1 (cfg : Config) (inp : Inputs)
    (hlt : cogIdx cfg inp < cfg.cogmap_size) (hsz : 1 < cfg.cogmap_size) :
    cogIdx cfg inp ≠ cogIdx1 cfg inp := by
  unfold cogIdx1
  rcases Nat.lt_or_ge (cogIdx cfg inp + 1) cfg.cogmap_size with hc | hc
  · rw [Nat.mod_eq_of_lt hc]
    omega
  · have he : cogIdx cfg inp + 1 = cfg.cogmap_size := by omega
    rw [he, Nat.mod_self]
    omega

lemma cogFrac_nonneg (cfg : Config) (inp : Inputs) (h0 : 0 ≤ inp.encoder_count_in_cpr) :
    0 ≤ cogFrac cfg inp := by
  unfold cogFrac
  have h := cogIdx_cast cfg inp h0
  have h2 : ((cogIdx cfg inp : ℤ) : ℚ) = ((cogIdx cfg inp : Nat) : ℚ) := by
    push_cast
    rfl
  rw [← h2] at *
  rw [h]
  have := Int.floor_le (cogIdxf cfg inp)
  linarith

lemma cogFrac_lt_one (cfg : Config) (inp : Inputs) (h0 : 0 ≤ inp.encoder_count_in_cpr) :
    cogFrac cfg inp < 1 := by
  unfold cogFrac
  have h := cogIdx_cast cfg inp h0
  have h2 : ((cogIdx cfg inp : ℤ) : ℚ) = ((cogIdx cfg inp : Nat) : ℚ) := by
    push_cast
    rfl
  rw [← h2] at *
  rw [h]
  have := Int.lt_floor_add_one (cogIdxf cfg inp)
  linarith

lemma clamp_bidirf_abs_le (x lim : ℚ) (h : 0 ≤ lim) : |clamp_bidirf x lim| ≤ lim := by
  unfold clamp_bidirf
  rw [abs_le]
  constructor
  · exact le_max_right _ _
  · exact max_le (min_le_right _ _) (by linarith)

lemma clamp_bidirf_mono (x y lim : ℚ) (h : x ≤ y) :
    clamp_bidirf x lim ≤ clamp_bidirf y lim := by
  unfold clamp_bidirf
  exact max_le_max (min_le_min h (le_refl _)) (le_refl _)

lemma clamp_bidirf_id_of_within (x lim : ℚ) (h : |x| ≤ lim) :
    clamp_bidirf x lim = x := by
  unfold clamp_bidirf
  rw [abs_le] at h
  rw [min_eq_left h.2, max_eq_left (by linarith [h.1])]

lemma getD_set_self (l : List ℚ) (i : Nat) (a : ℚ) (h : i < l.length) :
    (l.set i a).getD i 0 = a := by
  simp [List.getD, List.getElem?_set_eq_of_lt a h]

lemma getD_set_other (l : List ℚ) (i j : Nat) (a : ℚ) (h : i ≠ j) :
    (l.set i a).getD j 0 = l.getD j 0 := by
  simp [List.getD, List.getElem?_set_ne h]

lemma cogmapAdapt_spec (cfg : Config) (inp : Inputs) (v : ℚ)
    (hidx : cogIdx cfg inp < cfg.cogmap.length)
    (hidx1 : cogIdx1 cfg inp < cfg.cogmap.length)
    (hne : cogIdx cfg inp ≠ cogIdx1 cfg inp) :
    (cogmapAdapt cfg inp v).getD (cogIdx cfg inp) 0 =
      clamp_bidirf (cfg.cogmap.getD (cogIdx cfg inp) 0 +
        (1 - cogFrac cfg inp) * (cfg.cogmap_integrator_gain * v * inp.current_meas_period))
        cfg.cogmap_max_current ∧
    (cogmapAdapt cfg inp v).getD (cogIdx1 cfg inp) 0 =
      clamp_bidirf (cfg.cogmap.getD (cogIdx1 cfg inp) 0 +
        cogFrac cfg inp * (cfg.cogmap_integrator_gain * v * inp.current_meas_period))
        cfg.cogmap_max_current ∧
    (∀ j, j ≠ cogIdx cfg inp → j ≠ cogIdx1 cfg inp →
      (cogmapAdapt cfg inp v).getD j 0 = cfg.cogmap.getD j 0) ∧
    (cogmapAdapt cfg inp v).length = cfg.cogmap.length := by
  unfold cogmapAdapt
  dsimp only
  refine ⟨?_, ?_, ?_, ?_⟩
  · rw [getD_set_other _ _ _ _ (Ne.symm hne),
      getD_set_self _ _ _ (by rw [List.length_set, List.length_set]; exact hidx),
      getD_set_other _ _ _ _ (Ne.symm hne), getD_set_self _ _ _ hidx]
  · rw [getD_set_self _ _ _
        (by rw [List.length_set, List.length_set, List.length_set]; exact hidx1),
      getD_set_other _ _ _ _ hne,
      getD_set_self _ _ _ (by rw [List.length_set]; exact hidx1),
      getD_set_other _ _ _ _ hne]
  · intro j hj hj1
    rw [getD_set_other _ _ _ _ (Ne.symm hj1), getD_set_other _ _ _ _ (Ne.symm hj),
      getD_set_other _ _ _ _ (Ne.symm hj1), getD_set_other _ _ _ _ (Ne.symm hj)]
  · simp

lemma or_or_self (a b : Nat) : a ||| b ||| b = a ||| b := by
  rw [Nat.or_assoc, Nat.or_self]

lemma update_ok_of_tol_zero (s : ControllerState) (inp : Inputs) (pe ve : ℚ)
    (h : s.config.vel_limit_tolerance = 0) : (update s inp pe ve).2 ≠ none := by
  intro hc
  have h1 := ((update_snd_none_iff s inp pe ve).1 hc).1
  rw [h] at h1
  exact lt_irrefl 0 h1

/-! ### Concrete fixtures used by the witnesses -/

/-- A small concrete configuration: current-control mode, overspeed check
disabled, a four-entry zero cogging map. -/
def cfgW : Config :=
  { control_mode := CTRL_MODE_CURRENT_CONTROL
    pos_gain := 1, vel_gain := 1, vel_integrator_gain := 1
    vel_limit := 10, vel_limit_tolerance := 0
    vel_ramp_enable := false, vel_ramp_rate := 0
    setpoints_in_cpr := false
    cogmap := [0, 0, 0, 0], cogmap_size := 4
    cogmap_integrator_gain := 0, cogmap_max_current := 1 }

/-- A concrete controller state over `cfgW` with a nonzero integrator. -/
def stW : ControllerState :=
  { config := cfgW
    pos_setpoint := 0, vel_setpoint := 0, vel_integrator_current := 1
    current_setpoint := 2, vel_ramp_target := 0
    cogmap_current := 0, cogmap_correction_pwr := 0
    traj_start_loop_count := 0, goal_point := 0
    error := 0, axis_error := 0 }

/-- Concrete collaborator inputs: a four-count encoder at count 1, current
limit 10, PM motor. -/
def inpW : Inputs :=
  { loop_counter := 0, traj_Tf := 1, traj_eval := fun _ => ⟨0, 0, 0⟩
    A_per_css := 0, encoder_cpr := 4, encoder_pos_cpr := 0
    encoder_count_in_cpr := 1, motor_is_acim := false
    acim_rotor_flux := 0, acim_gain_min_flux := 0
    effective_current_lim := 10, current_meas_period := 1 / 8000 }

lemma cfgW_no_trip (ve : ℚ) : ¬overspeedTrip cfgW ve := by
  intro h
  exact absurd h.1 (by norm_num [cfgW])

lemma stW_eval : (update stW inpW 0 0).2 = some 3 := by
  rw [update_of_no_trip stW inpW 0 0 (cfgW_no_trip 0)]
  show some (mainPath stW inpW 0 0).2 = some 3
  rw [mainPath_snd_eq, rawCurrent_eq]
  norm_num [trajStage, stW, cfgW, inpW, CTRL_MODE_CURRENT_CONTROL, CTRL_MODE_TRAJECTORY_CONTROL,
    CTRL_MODE_VELOCITY_CONTROL, cogValue, cogFrac, cogIdx, cogIdx1, cogIdxf, ratTrunc,
    clampCurrent]

/-- `stW` with the overspeed check enabled at the spec's example numbers
(`vel_limit = 10`, tolerance `1.2`). -/
def stV : ControllerState :=
  { stW with config := { cfgW with vel_limit_tolerance := 6 / 5 } }

/-- `stW` in velocity-control mode. -/
def stWV : ControllerState :=
  { stW with config := { cfgW with control_mode := CTRL_MODE_VELOCITY_CONTROL } }

/-! ### Claims -/

/-- C1: whenever `update` returns true, the output current written through
`current_setpoint_output` has magnitude at most the motor's
`effective_current_lim()` queried during the call (assuming that limit is
non-negative), for every state, mode, setpoint and cogging-map content. -/
theorem upd_output_within_current_lim (s : ControllerState) (inp : Inputs)
    (pe ve Iq : ℚ) (hlim : 0 ≤ inp.effective_current_lim)
    (h : (update s inp pe ve).2 = some Iq) :
    |Iq| ≤ inp.effective_current_lim := by
  by_cases htrip : overspeedTrip s.config ve
  · rw [update_of_trip s inp pe ve htrip] at h
    exact absurd h (by simp)
  · rw [update_of_no_trip s inp pe ve htrip] at h
    obtain rfl : (mainPath s inp pe ve).2 = Iq := by simpa using h
    rw [mainPath_snd_eq]
    exact clampCurrent_abs_le _ _ hlim

/-- Witness for C1 at the concrete fixture: `update` outputs `3`, and
`|3| ≤ 10`. -/
theorem upd_output_within_current_lim_w :
    (0 : ℚ) ≤ inpW.effective_current_lim ∧ |(3 : ℚ)| ≤ inpW.effective_current_lim :=
  ⟨by norm_num [inpW],
    upd_output_within_current_lim stW inpW 0 0 3 (by norm_num [inpW]) stW_eval⟩

/-- C2: with `vel_limit_tolerance > 0`, an overspeed estimate
(`|vel_estimate| > tolerance * vel_limit`) makes `update` return false,
set the sticky overspeed bit and raise the axis's controller-failed flag,
while `|vel_estimate| ≤ tolerance * vel_limit` proceeds normally and
returns true; with `vel_limit_tolerance = 0` the check is disabled and the
controller error word is never touched. -/
theorem upd_overspeed_fault (s : ControllerState) (inp : Inputs) (pe ve : ℚ) :
    (0 < s.config.vel_limit_tolerance →
      (s.config.vel_limit_tolerance * s.config.vel_limit < |ve| →
        (update s inp pe ve).2 = none ∧
        (update s inp pe ve).1.error = s.error ||| ERROR_OVERSPEED ∧
        (update s inp pe ve).1.axis_error =
          s.axis_error ||| AXIS_ERROR_CONTROLLER_FAILED) ∧
      (|ve| ≤ s.config.vel_limit_tolerance * s.config.vel_limit →
        ((update s inp pe ve).2).isSome = true)) ∧
    (s.config.vel_limit_tolerance = 0 →
      ((update s inp pe ve).2).isSome = true ∧
        (update s inp pe ve).1.error = s.error) := by
  constructor
  · intro h0
    constructor
    · intro hgt
      rw [update_of_trip s inp pe ve ⟨h0, hgt⟩]
      refine ⟨rfl, ?_, ?_⟩
      · show (set_error _ _).error = _
        rw [(set_error_error _ _).1, (postPosState_error s inp pe).1]
      · show (set_error _ _).axis_error = _
        rw [(set_error_error _ _).2, (postPosState_error s inp pe).2]
    · intro hle
      rw [update_of_no_trip s inp pe ve (fun hc => absurd hc.2 (not_lt.2 hle))]
      rfl
  · intro h0
    have htrip : ¬overspeedTrip s.config ve := fun hc => by
      have h1 := hc.1
      rw [h0] at h1
      exact lt_irrefl 0 h1
    rw [update_of_no_trip s inp pe ve htrip]
    exact ⟨rfl, (mainPath_fst_error s inp pe ve).1⟩

/-- Witness for C2 at the spec's example: `vel_limit = 10`,
`tolerance = 1.2`; `vel_estimate = 13` trips the fault, `11` proceeds. -/
theorem upd_overspeed_fault_w :
    ((update stV inpW 0 13).2 = none ∧
      (update stV inpW 0 13).1.error = stV.error ||| ERROR_OVERSPEED ∧
      (update stV inpW 0 13).1.axis_error =
        stV.axis_error ||| AXIS_ERROR_CONTROLLER_FAILED) ∧
    ((update stV inpW 0 11).2).isSome = true :=
  ⟨((upd_overspeed_fault stV inpW 0 13).1 (by norm_num [stV, cfgW])).1
      (by norm_num [stV, cfgW]),
    ((upd_overspeed_fault stV inpW 0 11).1 (by norm_num [stV, cfgW])).2
      (by norm_num [stV, cfgW])⟩

/-- C10: with `0 ≤ count_in_cpr < cpr` and `cogmap_size > 0`, the two
cogging-map indices computed by `update` are in `[0, cogmap_size)`, and
`idx1` is the modular successor of `idx`. -/
theorem cogmap_indices_in_bounds (cfg : Config) (inp : Inputs)
    (h0 : 0 ≤ inp.encoder_count_in_cpr)
    (h1 : inp.encoder_count_in_cpr < (inp.encoder_cpr : Int))
    (hsz : 0 < cfg.cogmap_size) :
    cogIdx cfg inp < cfg.cogmap_size ∧ cogIdx1 cfg inp < cfg.cogmap_size ∧
      cogIdx1 cfg inp = (cogIdx cfg inp + 1) % cfg.cogmap_size :=
  ⟨cogIdx_lt_size cfg inp h0 h1 hsz, cogIdx1_lt_size cfg inp hsz, rfl⟩

/-- Witness for C10 at the concrete fixture (count 1 of 4, map size 4). -/
theorem cogmap_indices_in_bounds_w :
    cogIdx cfgW inpW < cfgW.cogmap_size ∧ cogIdx1 cfgW inpW < cfgW.cogmap_size ∧
      cogIdx1 cfgW inpW = (cogIdx cfgW inpW + 1) % cfgW.cogmap_size :=
  cogmap_indices_in_bounds cfgW inpW (by norm_num [inpW]) (by norm_num [inpW])
    (by norm_num [cfgW])

/-- C9: the state transition and the returned boolean of `update` do not
depend on the output pointer; the pointee is written only when the pointer
is non-null and the call returns true. -/
theorem upd_output_ptr_optional (s : ControllerState) (inp : Inputs) (pe ve : ℚ)
    (p1 p2 : Option ℚ) (v : ℚ) :
    (updateWithPtr s inp pe ve p1).1 = (updateWithPtr s inp pe ve p2).1 ∧
    (updateWithPtr s inp pe ve p1).1.1 = (update s inp pe ve).1 ∧
    (updateWithPtr s inp pe ve p1).1.2 = ((update s inp pe ve).2).isSome ∧
    (updateWithPtr s inp pe ve none).2 = none ∧
    ((updateWithPtr s inp pe ve p1).1.2 = false →
      (updateWithPtr s inp pe ve p1).2 = p1) ∧
    ((updateWithPtr s inp pe ve (some v)).1.2 = true →
      (updateWithPtr s inp pe ve (some v)).2 = (update s inp pe ve).2) := by
  rcases hu : update s inp pe ve with ⟨s', r⟩
  cases r <;> simp [updateWithPtr, hu]

/-- Witness for C9: a null pointer gives the same state as a non-null one,
stays unwritten, and the non-null pointee receives the output `3`. -/
theorem upd_output_ptr_optional_w :
    (updateWithPtr stW inpW 0 0 none).1 = (updateWithPtr stW inpW 0 0 (some 5)).1 ∧
    (updateWithPtr stW inpW 0 0 none).2 = none ∧
    (updateWithPtr stW inpW 0 0 (some 5)).2 = some 3 := by
  have h := upd_output_ptr_optional stW inpW 0 0 none (some 5) 5
  have h' := upd_output_ptr_optional stW inpW 0 0 (some 5) none 5
  refine ⟨h.1, h.2.2.2.1, ?_⟩
  rw [h'.2.2.2.2.2 (by rw [h'.2.2.1, stW_eval]; rfl), stW_eval]

lemma stWV_no_trip (ve : ℚ) : ¬overspeedTrip stWV.config ve := fun hc =>
  cfgW_no_trip ve ((overspeedTrip_mode_congr cfgW CTRL_MODE_VELOCITY_CONTROL ve).1 hc)

lemma stWV_raw : rawCurrent stWV inpW 0 0 = 3 := by
  rw [rawCurrent_eq]
  norm_num [trajStage, velDemand, postPosState, preloopState, posLoop, rampStage, limitVel,
    stWV, stW, cfgW, inpW, CTRL_MODE_CURRENT_CONTROL, CTRL_MODE_TRAJECTORY_CONTROL,
    CTRL_MODE_VELOCITY_CONTROL, CTRL_MODE_POSITION_CONTROL, cogValue, cogFrac, cogIdx,
    cogIdx1, cogIdxf, ratTrunc, scheduledGains]

lemma stWV_eval : (update stWV inpW 0 0).2 = some 3 := by
  rw [update_of_no_trip stWV inpW 0 0 (stWV_no_trip 0)]
  show some (mainPath stWV inpW 0 0).2 = some 3
  rw [mainPath_snd_eq, stWV_raw, clampCurrent_of_within 3 _ (by norm_num [inpW])
    (by norm_num [inpW])]

/-- C3: when `update` returns true and neither side of the current clamp
fires (the pre-clamp accumulator already lies within `±Ilim`), the output
current equals exactly feedforward (post-trajectory `current_setpoint_`) +
interpolated cogging value + (mode ≥ VELOCITY ? scheduled gain × velocity
error : 0) + the pre-call integrator. -/
theorem upd_output_exact_sum (s : ControllerState) (inp : Inputs)
    (pe ve Iq : ℚ) (h : (update s inp pe ve).2 = some Iq)
    (hle : rawCurrent s inp pe ve ≤ inp.effective_current_lim)
    (hge : -inp.effective_current_lim ≤ rawCurrent s inp pe ve) :
    Iq = (trajStage s inp).current_setpoint + cogValue s.config inp +
      (if CTRL_MODE_VELOCITY_CONTROL ≤ s.config.control_mode then
        (scheduledGains s.config inp).1 * (velDemand s inp pe - ve)
      else 0) + s.vel_integrator_current := by
  have htrip : ¬overspeedTrip s.config ve := fun hc => by
    rw [update_of_trip s inp pe ve hc] at h
    exact Option.noConfusion h
  rw [update_of_no_trip s inp pe ve htrip] at h
  obtain rfl : (mainPath s inp pe ve).2 = Iq := by simpa using h
  rw [mainPath_snd_eq, clampCurrent_of_within _ _ hle hge]
  exact rawCurrent_eq s inp pe ve

/-- Witness for C3 at the velocity-mode fixture: output `3` is exactly
`2 (feedforward) + 0 (cogging) + 1·(0−0) (P term) + 1 (integrator)`. -/
theorem upd_output_exact_sum_w :
    (3 : ℚ) = (trajStage stWV inpW).current_setpoint + cogValue stWV.config inpW +
      (if CTRL_MODE_VELOCITY_CONTROL ≤ stWV.config.control_mode then
        (scheduledGains stWV.config inpW).1 * (velDemand stWV inpW 0 - 0)
      else 0) + stWV.vel_integrator_current :=
  upd_output_exact_sum stWV inpW 0 0 3 stWV_eval
    (by rw [stWV_raw]; norm_num [inpW]) (by rw [stWV_raw]; norm_num [inpW])

/-- C5: on a non-aborted call with mode ≥ VELOCITY the post-call
integrator is `0.99 ×` the pre-call integrator when the current clamp
fired, and `pre + scheduled vel_integrator_gain × cycle_period ×
(vel_demand − vel_estimate)` when it did not; with mode < VELOCITY the
post-call integrator is `0`. -/
theorem upd_antiwindup_integrator (s : ControllerState) (inp : Inputs)
    (pe ve : ℚ) (hok : (update s inp pe ve).2 ≠ none) :
    (CTRL_MODE_VELOCITY_CONTROL ≤ s.config.control_mode →
      (¬(rawCurrent s inp pe ve ≤ inp.effective_current_lim ∧
          -inp.effective_current_lim ≤ rawCurrent s inp pe ve) →
        (update s inp pe ve).1.vel_integrator_current =
          s.vel_integrator_current * (99 / 100)) ∧
      ((rawCurrent s inp pe ve ≤ inp.effective_current_lim ∧
          -inp.effective_current_lim ≤ rawCurrent s inp pe ve) →
        (update s inp pe ve).1.vel_integrator_current =
          s.vel_integrator_current +
            (scheduledGains s.config inp).2 * inp.current_meas_period *
              (velDemand s inp pe - ve))) ∧
    (s.config.control_mode < CTRL_MODE_VELOCITY_CONTROL →
      (update s inp pe ve).1.vel_integrator_current = 0) := by
  have htrip : ¬overspeedTrip s.config ve :=
    fun hc => hok ((update_snd_none_iff s inp pe ve).2 hc)
  rw [update_of_no_trip s inp pe ve htrip]
  dsimp only
  refine ⟨fun hge => ⟨fun hnot => ?_, fun hw => ?_⟩, fun hlt => ?_⟩
  · rw [mainPath_fst_vel_integrator, if_neg (not_lt.2 hge),
      if_pos (clampCurrent_fst_of_not_within _ _ hnot)]
  · rw [mainPath_fst_vel_integrator, if_neg (not_lt.2 hge),
      clampCurrent_of_within _ _ hw.1 hw.2]
    simp
  · rw [mainPath_fst_vel_integrator, if_pos hlt]

/-- Witness for C5: at the velocity-mode fixture the clamp does not fire
and the integrator accumulates the (zero) velocity error; at the
current-mode fixture the integrator is reset to `0`. -/
theorem upd_antiwindup_integrator_w :
    (update stWV inpW 0 0).1.vel_integrator_current =
      stWV.vel_integrator_current +
        (scheduledGains stWV.config inpW).2 * inpW.current_meas_period *
          (velDemand stWV inpW 0 - 0) ∧
    (update stW inpW 0 0).1.vel_integrator_current = 0 :=
  ⟨((upd_antiwindup_integrator stWV inpW 0 0
        (update_ok_of_tol_zero stWV inpW 0 0 (by norm_num [stWV, cfgW]))).1
      (by norm_num [stWV, CTRL_MODE_VELOCITY_CONTROL])).2
      ⟨by rw [stWV_raw]; norm_num [inpW], by rw [stWV_raw]; norm_num [inpW]⟩,
    (upd_antiwindup_integrator stW inpW 0 0
        (update_ok_of_tol_zero stW inpW 0 0 (by norm_num [stW, cfgW]))).2
      (by norm_num [stW, cfgW, CTRL_MODE_VELOCITY_CONTROL, CTRL_MODE_CURRENT_CONTROL])⟩

/-- C6: with mode ≥ POSITION and `setpoints_in_cpr = true`, the position
setpoint is normalized into `[0, cpr)`, the position error is taken
against the encoder's circular count `pos_cpr_` (the `pos_estimate`
argument is ignored) and wrapped into `[-cpr/2, cpr/2)`; with
`setpoints_in_cpr = false` the error is `pos_setpoint − pos_estimate`
unwrapped and the setpoint is left alone. -/
theorem upd_circular_pos_error (s : ControllerState) (inp : Inputs) (pe ve : ℚ)
    (hm : CTRL_MODE_POSITION_CONTROL ≤ s.config.control_mode) :
    (s.config.setpoints_in_cpr = true →
      (update s inp pe ve).1.pos_setpoint =
        fmodf_pos (preloopState s inp).pos_setpoint (inp.encoder_cpr : ℚ) ∧
      (posLoop (preloopState s inp) inp pe).2 =
        (preloopState s inp).vel_setpoint + s.config.pos_gain *
          wrap_pm (fmodf_pos (preloopState s inp).pos_setpoint (inp.encoder_cpr : ℚ) -
            inp.encoder_pos_cpr) (1 / 2 * (inp.encoder_cpr : ℚ)) ∧
      (∀ pe', (posLoop (preloopState s inp) inp pe').2 =
        (posLoop (preloopState s inp) inp pe).2) ∧
      (0 < inp.encoder_cpr →
        0 ≤ fmodf_pos (preloopState s inp).pos_setpoint (inp.encoder_cpr : ℚ) ∧
        fmodf_pos (preloopState s inp).pos_setpoint (inp.encoder_cpr : ℚ) <
          (inp.encoder_cpr : ℚ) ∧
        -(1 / 2 * (inp.encoder_cpr : ℚ)) ≤
          wrap_pm (fmodf_pos (preloopState s inp).pos_setpoint (inp.encoder_cpr : ℚ) -
            inp.encoder_pos_cpr) (1 / 2 * (inp.encoder_cpr : ℚ)) ∧
        wrap_pm (fmodf_pos (preloopState s inp).pos_setpoint (inp.encoder_cpr : ℚ) -
            inp.encoder_pos_cpr) (1 / 2 * (inp.encoder_cpr : ℚ)) <
          1 / 2 * (inp.encoder_cpr : ℚ))) ∧
    (s.config.setpoints_in_cpr = false →
      (update s inp pe ve).1.pos_setpoint = (preloopState s inp).pos_setpoint ∧
      (posLoop (preloopState s inp) inp pe).2 =
        (preloopState s inp).vel_setpoint + s.config.pos_gain *
          ((preloopState s inp).pos_setpoint - pe)) := by
  have hm2 : CTRL_MODE_POSITION_CONTROL ≤ (preloopState s inp).config.control_mode := by
    rw [preloopState_mode]
    exact (trajStage_mode_ge_iff s inp _ (le_refl _)).2 hm
  have hpg : (preloopState s inp).config.pos_gain = s.config.pos_gain := by
    rw [preloopState_config_eq]
  constructor
  · intro hc
    have hc' : (preloopState s inp).config.setpoints_in_cpr = true := by
      rw [preloopState_config_eq]
      exact hc
    refine ⟨?_, ?_, ?_, ?_⟩
    · rw [update_fst_pos_setpoint]
      unfold postPosState
      rw [posLoop_fst_pos_setpoint, if_pos ⟨hm2, hc'⟩]
    · rw [posLoop_snd_cpr _ _ _ hm2 hc', hpg]
    · intro pe'
      rw [posLoop_snd_cpr _ _ pe' hm2 hc', posLoop_snd_cpr _ _ pe hm2 hc']
    · intro hcpr
      have hq : (0 : ℚ) < (inp.encoder_cpr : ℚ) := by exact_mod_cast hcpr
      have hw := wrap_pm_mem
        (fmodf_pos (preloopState s inp).pos_setpoint (inp.encoder_cpr : ℚ) -
          inp.encoder_pos_cpr) (1 / 2 * (inp.encoder_cpr : ℚ)) (by linarith)
      exact ⟨fmodf_pos_nonneg _ _ hq, fmodf_pos_lt _ _ hq, hw.1, hw.2⟩
  · intro hc
    have hc' : (preloopState s inp).config.setpoints_in_cpr = false := by
      rw [preloopState_config_eq]
      exact hc
    refine ⟨?_, ?_⟩
    · rw [update_fst_pos_setpoint]
      unfold postPosState
      rw [posLoop_fst_pos_setpoint,
        if_neg (fun hx => by rw [hc'] at hx; exact Bool.false_ne_true hx.2)]
    · rw [posLoop_snd_linear _ _ _ hm2 hc', hpg]

/-- Position-control fixture at the spec's circular-error example:
`cpr = 8192`, `pos_setpoint = 8100`, encoder `pos_cpr = 50`. -/
def stP : ControllerState :=
  { stW with config := { cfgW with control_mode := CTRL_MODE_POSITION_CONTROL,
                                   setpoints_in_cpr := true },
             pos_setpoint := 8100 }

/-- Inputs for the circular-error example (`cpr = 8192`, `pos_cpr = 50`). -/
def inpP : Inputs :=
  { inpW with encoder_cpr := 8192, encoder_pos_cpr := 50, encoder_count_in_cpr := 50 }

lemma stP_preloop : preloopState stP inpP = stP := by
  unfold preloopState
  rw [trajStage_of_mode_ne stP inpP (by decide), rampStage_of_mode_ne stP inpP (by decide)]

/-- Witness for C6 at the spec's numbers: the wrapped error is `−142`
(so the velocity demand contribution is `0 + 1 · (−142)`), not `8050`,
and the stored setpoint stays `8100` after normalization. -/
theorem upd_circular_pos_error_w :
    (posLoop (preloopState stP inpP) inpP 0).2 = -142 ∧
    (update stP inpP 0 77).1.pos_setpoint = 8100 := by
  have h := upd_circular_pos_error stP inpP 0 77 (by decide)
  have hc := h.1 (by decide)
  constructor
  · rw [hc.2.1, stP_preloop]
    show (0 : ℚ) + stP.config.pos_gain * _ = -142
    norm_num [stP, cfgW, inpP, inpW, wrap_pm, fmodf_pos, Int.floor_eq_iff]
  · rw [hc.1, stP_preloop]
    show fmodf_pos (8100 : ℚ) (8192 : ℚ) = 8100
    norm_num [fmodf_pos, Int.floor_eq_iff]

/-- Trajectory-mode fixture past the planner's duration, with
`setpoints_in_cpr = true` and a setpoint outside `[0, cpr)`. -/
def stT : ControllerState :=
  { stW with config := { cfgW with control_mode := CTRL_MODE_TRAJECTORY_CONTROL,
                                   setpoints_in_cpr := true },
             pos_setpoint := 9000 }

/-- Inputs for the trajectory-completion example: `cpr = 8192`, elapsed
time `2` against `Tf = 1`. -/
def inpT : Inputs :=
  { inpW with encoder_cpr := 8192, encoder_pos_cpr := 50, encoder_count_in_cpr := 50,
              loop_counter := 2, current_meas_period := 1 }

lemma stT_elapsed : trajElapsed stT inpT = 2 := by
  norm_num [trajElapsed, u32delta, stT, stW, inpT, inpW]

/-- Counterexample to C4 as stated: in TRAJECTORY mode with elapsed time
past `Tf`, the mode does drop to POSITION and the velocity/current
setpoints are zeroed, but with `setpoints_in_cpr = true` the position
setpoint is NOT left unchanged — the position loop normalizes it modulo
`cpr` in the same call (`9000 ↦ 808`). -/
theorem traj_completion_cex :
    trajElapsed stT inpT > inpT.traj_Tf ∧
    (update stT inpT 0 0).1.config.control_mode = CTRL_MODE_POSITION_CONTROL ∧
    (update stT inpT 0 0).1.vel_setpoint = 0 ∧
    (update stT inpT 0 0).1.current_setpoint = 0 ∧
    ¬((update stT inpT 0 0).1.pos_setpoint = stT.pos_setpoint) := by
  have ht : trajElapsed stT inpT > inpT.traj_Tf := by
    rw [stT_elapsed]
    norm_num [inpT, inpW]
  have hdone := trajStage_done stT inpT (by decide) ht
  refine ⟨ht, ?_, ?_, ?_, ?_⟩
  · rw [update_fst_mode, hdone]
  · rw [update_fst_vel_setpoint]
    unfold preloopState
    rw [hdone, rampStage_of_mode_ne _ inpT (by decide)]
  · rw [update_fst_current_setpoint, hdone]
  · rw [update_fst_pos_setpoint]
    unfold postPosState preloopState
    rw [hdone, rampStage_of_mode_ne _ inpT (by decide), posLoop_fst_pos_setpoint,
      if_pos ⟨by decide, by decide⟩]
    show ¬(fmodf_pos (9000 : ℚ) (8192 : ℚ) = (9000 : ℚ))
    norm_num [fmodf_pos, Int.floor_eq_iff]

/-- C4 amended: in TRAJECTORY mode, once the elapsed (uint32
loop-counter delta × cycle period) time exceeds `Tf`, the mode becomes
POSITION, the velocity and current setpoints become `0`, and the position
setpoint is left unchanged by the trajectory stage — except that when
`setpoints_in_cpr` is set the position loop then normalizes it modulo
`cpr` within the same call.  Otherwise the setpoints are loaded from the
planner sample (the sampled position likewise normalized when
`setpoints_in_cpr` is set) with the sampled acceleration scaled by
`A_per_css`. -/
theorem traj_completion_amended (s : ControllerState) (inp : Inputs) (pe ve : ℚ)
    (hm : s.config.control_mode = CTRL_MODE_TRAJECTORY_CONTROL) :
    (trajElapsed s inp > inp.traj_Tf →
      (update s inp pe ve).1.config.control_mode = CTRL_MODE_POSITION_CONTROL ∧
      (update s inp pe ve).1.vel_setpoint = 0 ∧
      (update s inp pe ve).1.current_setpoint = 0 ∧
      (update s inp pe ve).1.pos_setpoint =
        (if s.config.setpoints_in_cpr = true then
          fmodf_pos s.pos_setpoint (inp.encoder_cpr : ℚ)
        else s.pos_setpoint)) ∧
    (¬(trajElapsed s inp > inp.traj_Tf) →
      (update s inp pe ve).1.vel_setpoint = (inp.traj_eval (trajElapsed s inp)).Yd ∧
      (update s inp pe ve).1.current_setpoint =
        (inp.traj_eval (trajElapsed s inp)).Ydd * inp.A_per_css ∧
      (update s inp pe ve).1.pos_setpoint =
        (if s.config.setpoints_in_cpr = true then
          fmodf_pos (inp.traj_eval (trajElapsed s inp)).Y (inp.encoder_cpr : ℚ)
        else (inp.traj_eval (trajElapsed s inp)).Y)) := by
  constructor
  · intro ht
    have hdone := trajStage_done s inp hm ht
    have hne : ({ s with
        config := { s.config with control_mode := CTRL_MODE_POSITION_CONTROL },
        vel_setpoint := (0 : ℚ),
        current_setpoint := (0 : ℚ) }).config.control_mode ≠
        CTRL_MODE_VELOCITY_CONTROL := by
      show CTRL_MODE_POSITION_CONTROL ≠ CTRL_MODE_VELOCITY_CONTROL
      decide
    refine ⟨?_, ?_, ?_, ?_⟩
    · rw [update_fst_mode, hdone]
    · rw [update_fst_vel_setpoint]
      unfold preloopState
      rw [hdone, rampStage_of_mode_ne _ inp hne]
    · rw [update_fst_current_setpoint, hdone]
    · rw [update_fst_pos_setpoint]
      unfold postPosState preloopState
      rw [hdone, rampStage_of_mode_ne _ inp hne, posLoop_fst_pos_setpoint]
      by_cases hc : s.config.setpoints_in_cpr = true
      · rw [if_pos ⟨by exact le_refl _, hc⟩, if_pos hc]
      · rw [if_neg (fun hx => hc hx.2), if_neg hc]
  · intro ht
    have hrun := trajStage_run s inp hm ht
    have hne : ({ s with
        pos_setpoint := (inp.traj_eval (trajElapsed s inp)).Y,
        vel_setpoint := (inp.traj_eval (trajElapsed s inp)).Yd,
        current_setpoint :=
          (inp.traj_eval (trajElapsed s inp)).Ydd * inp.A_per_css }).config.control_mode ≠
        CTRL_MODE_VELOCITY_CONTROL := by
      show s.config.control_mode ≠ CTRL_MODE_VELOCITY_CONTROL
      rw [hm]
      decide
    refine ⟨?_, ?_, ?_⟩
    · rw [update_fst_vel_setpoint]
      unfold preloopState
      rw [hrun, rampStage_of_mode_ne _ inp hne]
    · rw [update_fst_current_setpoint, hrun]
    · rw [update_fst_pos_setpoint]
      unfold postPosState preloopState
      rw [hrun, rampStage_of_mode_ne _ inp hne, posLoop_fst_pos_setpoint]
      have hmode : CTRL_MODE_POSITION_CONTROL ≤
          ({ s with
            pos_setpoint := (inp.traj_eval (trajElapsed s inp)).Y,
            vel_setpoint := (inp.traj_eval (trajElapsed s inp)).Yd,
            current_setpoint :=
              (inp.traj_eval (trajElapsed s inp)).Ydd * inp.A_per_css }).config.control_mode := by
        show CTRL_MODE_POSITION_CONTROL ≤ s.config.control_mode
        rw [hm]
        decide
      by_cases hc : s.config.setpoints_in_cpr = true
      · rw [if_pos ⟨hmode, hc⟩, if_pos hc]
      · rw [if_neg (fun hx => hc hx.2), if_neg hc]

/-- Witness for C4's amended theorem: the done branch at the concrete
fixture parks the controller in POSITION mode with the setpoint
normalized to `808`. -/
theorem traj_completion_amended_w :
    (update stT inpT 0 0).1.config.control_mode = CTRL_MODE_POSITION_CONTROL ∧
    (update stT inpT 0 0).1.pos_setpoint = 808 := by
  have h := (traj_completion_amended stT inpT 0 0 (by decide)).1
    (by rw [stT_elapsed]; norm_num [inpT, inpW])
  refine ⟨h.1, ?_⟩
  rw [h.2.2.2]
  show (if true = true then fmodf_pos (9000 : ℚ) ((8192 : Nat) : ℚ) else (9000 : ℚ)) = 808
  norm_num [fmodf_pos, Int.floor_eq_iff]

lemma postPosState_of_current (s : ControllerState) (inp : Inputs) (pe : ℚ)
    (hm : s.config.control_mode = CTRL_MODE_CURRENT_CONTROL) :
    postPosState s inp pe = s := by
  unfold postPosState preloopState
  rw [trajStage_of_mode_ne s inp (by rw [hm]; decide),
    rampStage_of_mode_ne s inp (by rw [hm]; decide)]
  unfold posLoop
  rw [if_neg (by rw [hm]; decide)]

/-- The full effect of one CURRENT-mode `update` cycle on the state:
the interpolated cogging value is stored and the integrator reset. -/
def currentModeNext (s : ControllerState) (inp : Inputs) : ControllerState :=
  { s with cogmap_current := cogValue s.config inp, vel_integrator_current := 0 }

lemma mainPath_fst_current_mode (s : ControllerState) (inp : Inputs) (pe ve : ℚ)
    (hm : s.config.control_mode = CTRL_MODE_CURRENT_CONTROL) :
    (mainPath s inp pe ve).1 = currentModeNext s inp := by
  unfold currentModeNext
  unfold mainPath
  dsimp only
  rw [postPosState_of_current s inp pe hm]
  have hnot : ¬(CTRL_MODE_VELOCITY_CONTROL ≤ s.config.control_mode) := by
    rw [hm]
    decide
  rw [if_neg hnot]
  dsimp only
  have hlt : s.config.control_mode < CTRL_MODE_VELOCITY_CONTROL := by
    rw [hm]
    decide
  rw [if_pos hlt]

lemma set_error_idem (s : ControllerState) (e : Nat) :
    set_error (set_error s e) e = set_error s e := by
  unfold set_error
  dsimp only
  rw [or_or_self, or_or_self]

lemma stW_step1 : (update stW inpW 0 0).1 = { stW with vel_integrator_current := 0 } := by
  rw [update_of_no_trip stW inpW 0 0 (cfgW_no_trip 0)]
  show (mainPath stW inpW 0 0).1 = _
  rw [mainPath_fst_current_mode stW inpW 0 0 (by decide)]
  unfold currentModeNext
  have hcog : cogValue stW.config inpW = 0 := by
    norm_num [stW, cfgW, inpW, cogValue, cogFrac, cogIdx, cogIdx1, cogIdxf, ratTrunc]
  rw [hcog]
  rfl

lemma stW_step1_eval : (update { stW with vel_integrator_current := 0 } inpW 0 0).2 =
    some 2 := by
  rw [update_of_no_trip _ inpW 0 0 (cfgW_no_trip 0)]
  show some (mainPath _ inpW 0 0).2 = some 2
  rw [mainPath_snd_eq, rawCurrent_eq]
  norm_num [trajStage, stW, cfgW, inpW, CTRL_MODE_CURRENT_CONTROL, CTRL_MODE_TRAJECTORY_CONTROL,
    CTRL_MODE_VELOCITY_CONTROL, cogValue, cogFrac, cogIdx, cogIdx1, cogIdxf, ratTrunc,
    clampCurrent]

/-- Counterexample to C7 as stated: at a CURRENT-mode state whose
integrator is nonzero, the first call returns `3` and zeroes the
integrator (mutating it), and the second call with identical inputs
returns `2` — so `update` is neither output-stable nor
integrator-preserving on the first call. -/
theorem upd_current_mode_cex :
    stW.config.control_mode = CTRL_MODE_CURRENT_CONTROL ∧
    (update stW inpW 0 0).2 = some 3 ∧
    (update ((update stW inpW 0 0).1) inpW 0 0).2 = some 2 ∧
    ¬((update stW inpW 0 0).1.vel_integrator_current = stW.vel_integrator_current) := by
  refine ⟨rfl, stW_eval, ?_, ?_⟩
  · rw [stW_step1]
    exact stW_step1_eval
  · rw [stW_step1]
    norm_num [stW]

/-- C7 amended: in CURRENT mode `update` is idempotent from the first
call on — the state after one call is a fixed point of `update` (so every
later call returns the same output and no longer changes anything), and a
successful first call leaves the integrator at exactly `0` (zeroing it,
rather than never touching it). -/
theorem upd_current_mode_idempotent (s : ControllerState) (inp : Inputs)
    (pe ve : ℚ) (hm : s.config.control_mode = CTRL_MODE_CURRENT_CONTROL) :
    (update ((update s inp pe ve).1) inp pe ve).1 = (update s inp pe ve).1 ∧
    ((update s inp pe ve).2 ≠ none →
      (update s inp pe ve).1.vel_integrator_current = 0) := by
  by_cases htrip : overspeedTrip s.config ve
  · rw [update_of_trip s inp pe ve htrip, postPosState_of_current s inp pe hm]
    dsimp only
    have hmE : (set_error s ERROR_OVERSPEED).config.control_mode =
        CTRL_MODE_CURRENT_CONTROL := hm
    have htripE : overspeedTrip (set_error s ERROR_OVERSPEED).config ve := htrip
    rw [update_of_trip _ inp pe ve htripE,
      postPosState_of_current _ inp pe hmE]
    exact ⟨set_error_idem s ERROR_OVERSPEED, fun hok => absurd rfl hok⟩
  · rw [update_of_no_trip s inp pe ve htrip]
    dsimp only
    rw [mainPath_fst_current_mode s inp pe ve hm]
    have hm1 : (currentModeNext s inp).config.control_mode =
        CTRL_MODE_CURRENT_CONTROL := hm
    have htrip1 : ¬overspeedTrip (currentModeNext s inp).config ve := htrip
    rw [update_of_no_trip _ inp pe ve htrip1]
    dsimp only
    rw [mainPath_fst_current_mode _ inp pe ve hm1]
    exact ⟨rfl, fun _ => rfl⟩

/-- Witness for C7's amended theorem: at the concrete fixture the
post-first-call state is a fixed point and its integrator is `0`. -/
theorem upd_current_mode_idempotent_w :
    (update ((update stW inpW 0 0).1) inpW 0 0).1 = (update stW inpW 0 0).1 ∧
    (update stW inpW 0 0).1.vel_integrator_current = 0 := by
  have h := upd_current_mode_idempotent stW inpW 0 0 (by decide)
  exact ⟨h.1, h.2 (by rw [stW_eval]; exact Option.noConfusion)⟩

/-- C8: on a non-aborted call with mode ≥ VELOCITY, a well-formed map
(`length = cogmap_size > 1`), in-range encoder count and
`cogmap_max_current ≥ 0`: the two bracketing entries receive the
correction split by the interpolation weights `(1 − frac)` and `frac` and
are then clamped to `±cogmap_max_current`, every other entry is unchanged,
and an unclamped entry moves monotonically toward the bound under a
constant-sign velocity error. -/
theorem upd_cogmap_learning (s : ControllerState) (inp : Inputs) (pe ve : ℚ)
    (hm : CTRL_MODE_VELOCITY_CONTROL ≤ s.config.control_mode)
    (hok : (update s inp pe ve).2 ≠ none)
    (hmax : 0 ≤ s.config.cogmap_max_current)
    (h0 : 0 ≤ inp.encoder_count_in_cpr)
    (h1 : inp.encoder_count_in_cpr < (inp.encoder_cpr : Int))
    (hsz : 1 < s.config.cogmap_size)
    (hlen : s.config.cogmap.length = s.config.cogmap_size) :
    (update s inp pe ve).1.config.cogmap.getD (cogIdx s.config inp) 0 =
      clamp_bidirf (s.config.cogmap.getD (cogIdx s.config inp) 0 +
        (1 - cogFrac s.config inp) * (s.config.cogmap_integrator_gain *
          (velDemand s inp pe - ve) * inp.current_meas_period))
        s.config.cogmap_max_current ∧
    (update s inp pe ve).1.config.cogmap.getD (cogIdx1 s.config inp) 0 =
      clamp_bidirf (s.config.cogmap.getD (cogIdx1 s.config inp) 0 +
        cogFrac s.config inp * (s.config.cogmap_integrator_gain *
          (velDemand s inp pe - ve) * inp.current_meas_period))
        s.config.cogmap_max_current ∧
    |(update s inp pe ve).1.config.cogmap.getD (cogIdx s.config inp) 0| ≤
      s.config.cogmap_max_current ∧
    |(update s inp pe ve).1.config.cogmap.getD (cogIdx1 s.config inp) 0| ≤
      s.config.cogmap_max_current ∧
    (∀ j, j ≠ cogIdx s.config inp → j ≠ cogIdx1 s.config inp →
      (update s inp pe ve).1.config.cogmap.getD j 0 = s.config.cogmap.getD j 0) ∧
    (0 ≤ s.config.cogmap_integrator_gain * (velDemand s inp pe - ve) *
        inp.current_meas_period →
      (|s.config.cogmap.getD (cogIdx s.config inp) 0| ≤ s.config.cogmap_max_current →
        s.config.cogmap.getD (cogIdx s.config inp) 0 ≤
          (update s inp pe ve).1.config.cogmap.getD (cogIdx s.config inp) 0) ∧
      (|s.config.cogmap.getD (cogIdx1 s.config inp) 0| ≤ s.config.cogmap_max_current →
        s.config.cogmap.getD (cogIdx1 s.config inp) 0 ≤
          (update s inp pe ve).1.config.cogmap.getD (cogIdx1 s.config inp) 0)) ∧
    (s.config.cogmap_integrator_gain * (velDemand s inp pe - ve) *
        inp.current_meas_period ≤ 0 →
      (|s.config.cogmap.getD (cogIdx s.config inp) 0| ≤ s.config.cogmap_max_current →
        (update s inp pe ve).1.config.cogmap.getD (cogIdx s.config inp) 0 ≤
          s.config.cogmap.getD (cogIdx s.config inp) 0) ∧
      (|s.config.cogmap.getD (cogIdx1 s.config inp) 0| ≤ s.config.cogmap_max_current →
        (update s inp pe ve).1.config.cogmap.getD (cogIdx1 s.config inp) 0 ≤
          s.config.cogmap.getD (cogIdx1 s.config inp) 0)) := by
  have htrip : ¬overspeedTrip s.config ve :=
    fun hc => hok ((update_snd_none_iff s inp pe ve).2 hc)
  have hmap : (update s inp pe ve).1.config.cogmap =
      cogmapAdapt s.config inp (velDemand s inp pe - ve) := by
    rw [update_of_no_trip s inp pe ve htrip]
    show (mainPath s inp pe ve).1.config.cogmap = _
    rw [mainPath_fst_cogmap, if_pos hm]
  have hszpos : 0 < s.config.cogmap_size := lt_trans Nat.zero_lt_one hsz
  have hidx : cogIdx s.config inp < s.config.cogmap.length := by
    rw [hlen]
    exact cogIdx_lt_size s.config inp h0 h1 hszpos
  have hidx1 : cogIdx1 s.config inp < s.config.cogmap.length := by
    rw [hlen]
    exact cogIdx1_lt_size s.config inp hszpos
  have hne : cogIdx s.config inp ≠ cogIdx1 s.config inp :=
    cogIdx_ne_cogIdx1 s.config inp (by rw [← hlen]; exact hidx) hsz
  have hspec := cogmapAdapt_spec s.config inp (velDemand s inp pe - ve) hidx hidx1 hne
  have hfr0 : 0 ≤ cogFrac s.config inp := cogFrac_nonneg s.config inp h0
  have hfr1 : cogFrac s.config inp < 1 := cogFrac_lt_one s.config inp h0
  refine ⟨?_, ?_, ?_, ?_, ?_, ?_, ?_⟩
  · rw [hmap]
    exact hspec.1
  · rw [hmap]
    exact hspec.2.1
  · rw [hmap, hspec.1]
    exact clamp_bidirf_abs_le _ _ hmax
  · rw [hmap, hspec.2.1]
    exact clamp_bidirf_abs_le _ _ hmax
  · intro j hj hj1
    rw [hmap]
    exact hspec.2.2.1 j hj hj1
  · intro hcorr
    constructor
    · intro hwithin
      rw [hmap, hspec.1]
      calc s.config.cogmap.getD (cogIdx s.config inp) 0
          = clamp_bidirf (s.config.cogmap.getD (cogIdx s.config inp) 0)
              s.config.cogmap_max_current := (clamp_bidirf_id_of_within _ _ hwithin).symm
        _ ≤ _ := clamp_bidirf_mono _ _ _
              (by nlinarith [mul_nonneg (by linarith : (0:ℚ) ≤ 1 - cogFrac s.config inp) hcorr])
    · intro hwithin
      rw [hmap, hspec.2.1]
      calc s.config.cogmap.getD (cogIdx1 s.config inp) 0
          = clamp_bidirf (s.config.cogmap.getD (cogIdx1 s.config inp) 0)
              s.config.cogmap_max_current := (clamp_bidirf_id_of_within _ _ hwithin).symm
        _ ≤ _ := clamp_bidirf_mono _ _ _
              (by nlinarith [mul_nonneg hfr0 hcorr])
  · intro hcorr
    have hw0 : (0 : ℚ) ≤ 1 - cogFrac s.config inp := by linarith
    have hp1 : (1 - cogFrac s.config inp) *
        (s.config.cogmap_integrator_gain * (velDemand s inp pe - ve) *
          inp.current_meas_period) ≤ 0 := by nlinarith
    have hp2 : cogFrac s.config inp *
        (s.config.cogmap_integrator_gain * (velDemand s inp pe - ve) *
          inp.current_meas_period) ≤ 0 := by nlinarith
    constructor
    · intro hwithin
      rw [hmap, hspec.1]
      exact le_trans (clamp_bidirf_mono _ _ _ (by linarith))
        (le_of_eq (clamp_bidirf_id_of_within _ _ hwithin))
    · intro hwithin
      rw [hmap, hspec.2.1]
      exact le_trans (clamp_bidirf_mono _ _ _ (by linarith))
        (le_of_eq (clamp_bidirf_id_of_within _ _ hwithin))

/-- Velocity-mode fixture with an adaptation gain sized so one cycle's
cogging correction is exactly `1` (which the `±1` clamp then saturates). -/
def stA : ControllerState :=
  { stW with config := { cfgW with control_mode := CTRL_MODE_VELOCITY_CONTROL,
                                   cogmap_integrator_gain := 8000 },
             vel_setpoint := 1 }

/-- Witness for C8 at the concrete fixture: the bracketing entry at
index 1 receives the whole weight-`1` correction, lands exactly on the
clamp bound `1`, and stays within `±cogmap_max_current`. -/
theorem upd_cogmap_learning_w :
    |(update stA inpW 0 0).1.config.cogmap.getD (cogIdx stA.config inpW) 0| ≤
      stA.config.cogmap_max_current ∧
    (update stA inpW 0 0).1.config.cogmap.getD (cogIdx stA.config inpW) 0 = 1 := by
  have h := upd_cogmap_learning stA inpW 0 0 (by decide)
    (update_ok_of_tol_zero stA inpW 0 0 (by norm_num [stA, cfgW]))
    (by norm_num [stA, cfgW]) (by norm_num [inpW]) (by norm_num [inpW])
    (by norm_num [stA, cfgW]) (by norm_num [stA, cfgW])
  refine ⟨h.2.2.1, ?_⟩
  rw [h.1]
  have hvd : velDemand stA inpW 0 = 1 := by
    norm_num [velDemand, postPosState, preloopState, posLoop, rampStage, trajStage, limitVel,
      stA, stW, cfgW, inpW, CTRL_MODE_VELOCITY_CONTROL, CTRL_MODE_TRAJECTORY_CONTROL,
      CTRL_MODE_POSITION_CONTROL]
  rw [hvd]
  have hfr : cogFrac stA.config inpW = 0 := by
    norm_num [cogFrac, cogIdx, cogIdxf, ratTrunc, stA, cfgW, inpW]
  have hix : cogIdx stA.config inpW = 1 := by
    norm_num [cogIdx, cogIdxf, ratTrunc, stA, cfgW, inpW]
  rw [hfr, hix]
  norm_num [stA, cfgW, inpW, clamp_bidirf, List.getD]

end ODrive
